import Mathlib

/-!
Verification of the `needler.py` peptide-targeting optimizer
(`src/needler.py`): a shallow embedding of its input normalization
(`Needler.load`), constraint-model construction (`Needler.build_model`)
and anytime search loop (`Needler.optimize`), together with theorems
settling the specification's claims about them.

Row and variable-list ORDER produced by shuffling (`--shuffle`,
`--sortgroups`) is pure symmetry breaking and is dropped here; every
property proved is order-independent, and theorems quantified over an
arbitrary normalized table (`List PepRow`) cover shuffled and un-shuffled
tables alike.  The identifier REASSIGNMENT of the shuffle branch is not
order-only, however: lines 113-115 give every ROW a fresh peptide uuid,
changing which rows share a decision variable; that branch is modeled
explicitly by `applyShuffleIds`.
-/

namespace Needler

/-- One row of the input csv consumed by `Needler.load`: an accession
(protein id), a peptide sequence and the predicted retention time in
seconds (`prosit_predicted_rt_seconds`, taken at integer granularity). -/
structure Row where
  accession : String
  peptide_sequence : String
  prosit_predicted_rt_seconds : Int
deriving DecidableEq, Repr

/-- A normalized row after `Needler.load`: `protein_id = accession`,
`peptide_id = peptide_sequence` (lines 86-87) and the derived elution
window `rt_start`/`rt_stop` (lines 134-139). -/
structure PepRow where
  protein_id : String
  peptide_id : String
  rt_start : Int
  rt_stop : Int
deriving DecidableEq, Repr

/-- The configuration surface of a `Needler` instance (constructor
arguments relevant to the claims). -/
structure Config where
  rt_width : Int
  targets_per_cycle : Nat
  peps_per_prot : Nat
deriving DecidableEq, Repr

/-- `df.groupby(["protein_id"]).peptide_id.transform(lambda x: x.nunique())`
(lines 92-94): the number of distinct peptide sequences of a protein. -/
def proteinPeps (rows : List Row) (prot : String) : Nat :=
  ((rows.filter (fun r => r.accession = prot)).map (·.peptide_sequence)).dedup.length

/-- The protein-dropping filter of `Needler.load` (lines 96-99).  The
trigger test `bidx = self.df.protein_peps < self.peps_per_prot` reads the
instance attribute `selfK`, but the filter that is then applied,
`self.df.protein_peps >= args.peps_per_prot`, reads the module-level
command-line namespace `argsK`. -/
def loadFilter (rows : List Row) (selfK argsK : Nat) : List Row :=
  if rows.any (fun r => proteinPeps rows r.accession < selfK) then
    rows.filter (fun r => argsK ≤ proteinPeps rows r.accession)
  else rows

/-- Window derivation of `Needler.load` (lines 134-139):
`rt_start = rt - rt_width`, `rt_stop = rt + rt_width`.  Lines 140-144 only
log "Adjusting negative peptide rt_start values to 0" when `rt_start < 0`;
no value is changed, so no clamping appears here.  The identifiers are
those of lines 86-87 (the shuffle-disabled path); the identifier
reassignment of the `self.shuffle` branch is applied on top of this by
`applyShuffleIds` below. -/
def mkPepRow (W : Int) (r : Row) : PepRow :=
  { protein_id := r.accession
    peptide_id := r.peptide_sequence
    rt_start := r.prosit_predicted_rt_seconds - W
    rt_stop := r.prosit_predicted_rt_seconds + W }

/-- The failure mode the specification names `InputError`.  In the source
it surfaces as the pandas attribute error raised when `Needler.load`
accesses a column absent from the csv (lines 86-87 and 134). -/
inductive InputError where
  | missingColumn
deriving DecidableEq, Repr

/-- The raw input artifact: the csv's column names plus its rows. -/
structure InputTable where
  columns : List String
  rows : List Row
deriving DecidableEq, Repr

/-- The columns `Needler.load` dereferences: `accession` (line 86),
`peptide_sequence` (line 87), `prosit_predicted_rt_seconds` (line 134). -/
def requiredColumns : List String :=
  ["accession", "peptide_sequence", "prosit_predicted_rt_seconds"]

/-- `Needler.load`: fails when a required column is missing (the attribute
access raises), otherwise applies the protein-dropping filter and derives
the elution windows.  No emptiness check follows the filter. -/
def load (selfK argsK : Nat) (W : Int) (t : InputTable) :
    Except InputError (List PepRow) :=
  if requiredColumns.all (fun c => t.columns.contains c) then
    .ok ((loadFilter t.rows selfK argsK).map (mkPepRow W))
  else .error .missingColumn

/-- The identifier reassignment of the `self.shuffle` branch of
`Needler.load` (lines 106-121).  Protein ids are remapped consistently —
one fresh guid per protein, built by `groupby(["protein_id"]).apply(uuid4)`
and substituted with `replace` (lines 109-112), modeled by `protGuid`.
`peptide_id`, however, is reassigned by
`self.df["peptide_id"].apply(lambda x: f"{uuid.uuid4()}")` (lines
113-115): the lambda ignores its argument, so every ROW receives its own
fresh identifier from the stream `pepUuids` (pairwise distinct in any
real run) and rows sharing a peptide sequence stop sharing a variable.
The row reordering by `sample(frac=1)` (line 118) is dropped as pure
symmetry breaking. -/
def applyShuffleIds (protGuid : String → String) (pepUuids : List String)
    (rows : List PepRow) : List PepRow :=
  List.zipWith
    (fun r u => { r with protein_id := protGuid r.protein_id, peptide_id := u })
    rows pepUuids

/-- `Needler.load` including the `shuffle` flag: with `shuffle` disabled
it is `load`; with `shuffle` enabled the identifier reassignment of
lines 106-121 is applied as well (window derivation commutes with it,
since lines 134-139 read only the untouched rt column). -/
def loadWith (shuffle : Bool) (protGuid : String → String)
    (pepUuids : List String) (selfK argsK : Nat) (W : Int) (t : InputTable) :
    Except InputError (List PepRow) :=
  if requiredColumns.all (fun c => t.columns.contains c) then
    let base := (loadFilter t.rows selfK argsK).map (mkPepRow W)
    .ok (if shuffle then applyShuffleIds protGuid pepUuids base else base)
  else .error .missingColumn

/-- `self.protein_order`: the distinct protein ids of the normalized
table (line 104 / 121; order is shuffle-dependent in the source and
irrelevant to every property proved here). -/
def proteinOrder (rows : List PepRow) : List String :=
  (rows.map (·.protein_id)).dedup

/-- `self.peptide_order`: the distinct peptide ids of the normalized
table (line 105 / 120); one z3 boolean variable is created per entry
(lines 165-168), so these are exactly the decision variables. -/
def peptideOrder (rows : List PepRow) : List String :=
  (rows.map (·.peptide_id)).dedup

/-- `set(self.df[self.df.protein_id == prot_id].peptide_id)` (line 191):
the distinct member peptide variables of one protein. -/
def protVars (rows : List PepRow) (prot : String) : List String :=
  ((rows.filter (fun r => r.protein_id = prot)).map (·.peptide_id)).dedup

/-- `set(self.df[bidx].peptide_id)` for
`bidx = (rt_start <= t) & (rt_stop >= t)` (lines 227-229): the distinct
peptides whose elution window covers the instant `t`, inclusive at both
ends. -/
def covering (rows : List PepRow) (t : Int) : List String :=
  ((rows.filter (fun r => r.rt_start ≤ t ∧ t ≤ r.rt_stop)).map (·.peptide_id)).dedup

/-- `self.df.rt_start.min()` (defined as `0` on an empty table, which the
source never evaluates on). -/
def minStart : List PepRow → Int
  | [] => 0
  | r :: rs => (rs.map (·.rt_start)).foldl min r.rt_start

/-- `self.df.rt_stop.max()` (defined as `0` on an empty table, which the
source never evaluates on). -/
def maxStop : List PepRow → Int
  | [] => 0
  | r :: rs => (rs.map (·.rt_stop)).foldl max r.rt_stop

/-- `list(range(lo, hi + 1))` over integers. -/
def intRange (lo hi : Int) : List Int :=
  (List.range (hi + 1 - lo).toNat).map (fun n => lo + Int.ofNat n)

/-- `time_steps = list(range(rt_minimum, rt_maximum + 1))` with
`rt_minimum = max(rt_start.min(), 0)` and `rt_maximum = rt_stop.max()`
(lines 219-221). -/
def timeSteps (rows : List PepRow) : List Int :=
  intRange (max (minStart rows) 0) (maxStop rows)

/-- The number of variables of `vars` assigned `true` by `σ`: the value a
z3 pseudo-boolean/cardinality constraint counts over weight-1 literals. -/
def countTrue (σ : String → Bool) (vars : List String) : Nat :=
  vars.countP σ

/-- The three constraint shapes `Needler.build_model` emits:
`z3.AtMost(*vars, k)`;
`z3.Or(z3.PbEq(vars, k₁), z3.PbEq(vars, k₂))` over weight-1 literals;
`z3.Sum([z3.If(z3.PbEq(vars_p, K), 1, 0) for p]) > k`. -/
inductive Constraint where
  | atMost (vars : List String) (k : Int)
  | orPbEq (vars : List String) (k₁ k₂ : Nat)
  | sumGT (protSets : List (List String)) (K : Nat) (k : Nat)
deriving DecidableEq, Repr

/-- Truth of a constraint under an assignment of the boolean decision
variables. -/
def Constraint.holds (σ : String → Bool) : Constraint → Bool
  | .atMost vars k => decide ((countTrue σ vars : Int) ≤ k)
  | .orPbEq vars k₁ k₂ => countTrue σ vars == k₁ || countTrue σ vars == k₂
  | .sumGT protSets K k =>
      decide (k < (protSets.map
        (fun vs => if countTrue σ vs = K then (1 : Nat) else 0)).sum)

/-- The global cardinality hint of `Needler.build_model` (lines 175-183),
computed with Python's floor division (`//` = `Int.fdiv`). -/
def maxTargetable (cfg : Config) (rows : List PepRow) : Int :=
  let PEPTIDE_ALLOWED_OFFSET : Int := 500
  let pep_elution_width : Int := 1 + 2 * cfg.rt_width
  let gradient_length_seconds : Int := maxStop rows - minStart rows
  let blocks : Int := gradient_length_seconds.fdiv pep_elution_width + 1
  let max_targetable_blocks : Int := blocks * (cfg.targets_per_cycle : Int)
  let max_target_from_prots : Int :=
    ((proteinOrder rows).length : Int) * (cfg.peps_per_prot : Int)
  min max_targetable_blocks max_target_from_prots + PEPTIDE_ALLOWED_OFFSET

/-- The per-protein balance constraints (lines 190-202): for each protein
of `protein_order`, `Or(PbEq(member_vars, 0), PbEq(member_vars, K))`. -/
def proteinConstraints (cfg : Config) (rows : List PepRow) : List Constraint :=
  (proteinOrder rows).map
    (fun p => Constraint.orPbEq (protVars rows p) 0 cfg.peps_per_prot)

/-- The per-time-slot capacity constraints (lines 218-233): for each `t`
of `time_steps` whose covering peptide set is non-empty,
`AtMost(*slot_vars, targets_per_cycle)`. -/
def slotConstraints (cfg : Config) (rows : List PepRow) : List Constraint :=
  (timeSteps rows).filterMap
    (fun t =>
      if (covering rows t).isEmpty then none
      else some (Constraint.atMost (covering rows t) (cfg.targets_per_cycle : Int)))

/-- `Needler.build_model` as a constraint set, in emission order: the
global cardinality hint (line 186), the per-protein balance constraints
(lines 198-202), the initial ratchet `Sum(proteins_targeted) > 0`
(lines 210-212), and the per-time-slot capacity constraints (line 233). -/
def buildModel (cfg : Config) (rows : List PepRow) : List Constraint :=
  Constraint.atMost (peptideOrder rows) (maxTargetable cfg rows)
    :: proteinConstraints cfg rows
    ++ [Constraint.sumGT ((proteinOrder rows).map (protVars rows))
          cfg.peps_per_prot 0]
    ++ slotConstraints cfg rows

/-- An assignment is a solution of the built model when every emitted
constraint holds under it. -/
def modelSat (σ : String → Bool) (cs : List Constraint) : Bool :=
  cs.all (Constraint.holds σ)

/-- One answer of `self.solver.check()` (line 267): `sat` carries the
engine's model, read back variable by variable in lines 283-287. -/
inductive CheckResult where
  | sat (σ : String → Bool)
  | unsat
  | unknown

/-- How one run of `Needler.optimize` ends.  `exhausted` stands for a
run still inside the `while True` loop when the supplied trace of engine
answers runs out.  `crashUnboundLocal` is the Python `UnboundLocalError`
raised at line 325 when the `unknown` branch reads `remainder_seconds`,
a local that is only ever assigned under `if self.timeout > 0`
(lines 270-279). -/
inductive Terminal where
  | exhausted
  | solvedAll
  | loopDetected
  | infeasible
  | timedOut
  | crashUnboundLocal
deriving DecidableEq, Repr

/-- `protein_target` as `Needler.optimize` derives it from a model
(lines 283-299): group the selected rows by protein, count distinct
selected peptides per protein (only proteins with at least one selected
row appear in the groupby), and count the proteins whose tally equals
`peps_per_prot`. -/
def proteinTarget (rows : List PepRow) (K : Nat) (σ : String → Bool) : Nat :=
  ((proteinOrder rows).filter
    (fun p => countTrue σ (protVars rows p) != 0
      && countTrue σ (protVars rows p) == K)).length

/-- What one run of the search loop leaves behind: `saves` is the
`protein_target` of each artifact the Result Persister wrote (lines
305-308), in order; `bounds` the ratchet bounds added by
`solver.add(Sum(proteins_targeted) > protein_target)` (line 310);
`term` the terminal state; `sats` the number of satisfiable checks the
loop consumed. -/
structure LoopResult where
  saves : List Nat
  bounds : List Nat
  term : Terminal
  sats : Nat
deriving Repr

/-- The `while True` loop of `Needler.optimize` (lines 265-329), driven
by a finite trace of engine answers; `best` is `best_ever_result`.
On `sat`: if `protein_target > best_ever_result` the model is persisted
and the ratchet tightened, then the loop breaks when every protein is
targeted and continues otherwise; a non-improving `sat` logs "Z3 loop
detected" and breaks.  `unsat` breaks.  `unknown` reads
`remainder_seconds`, which crashes unless `timeout > 0` assigned it
earlier in the iteration. -/
def optimize (rows : List PepRow) (K : Nat) (timeout : Int) :
    List CheckResult → Nat → LoopResult
  | [], _ => ⟨[], [], .exhausted, 0⟩
  | .sat σ :: rest, best =>
    let t := proteinTarget rows K σ
    if best < t then
      if t = (proteinOrder rows).length then ⟨[t], [t], .solvedAll, 1⟩
      else
        let r := optimize rows K timeout rest t
        ⟨t :: r.saves, t :: r.bounds, r.term, r.sats + 1⟩
    else ⟨[], [], .loopDetected, 1⟩
  | .unsat :: _, _ => ⟨[], [], .infeasible, 0⟩
  | .unknown :: _, _ =>
    if 0 < timeout then ⟨[], [], .timedOut, 0⟩
    else ⟨[], [], .crashUnboundLocal, 0⟩

/-- `Needler.optimize` starts from `best_ever_result = 0` (line 264). -/
def runOptimize (rows : List PepRow) (K : Nat) (timeout : Int)
    (trace : List CheckResult) : LoopResult :=
  optimize rows K timeout trace 0

/-- The whole program (`main`, lines 332-343): `load`, then model
construction and the search loop.  The Result Persister (`Needler.save`)
runs only inside the loop, so an error from `load` leaves the
destination artifact untouched. -/
def run (selfK argsK : Nat) (W : Int) (timeout : Int) (t : InputTable)
    (trace : List CheckResult) : Except InputError LoopResult :=
  match load selfK argsK W t with
  | .error e => .error e
  | .ok rows => .ok (runOptimize rows selfK timeout trace)

/-! ### Helper lemmas -/

theorem foldl_min_le_init (l : List Int) (a : Int) : l.foldl min a ≤ a := by
  induction l generalizing a with
  | nil => simp
  | cons x xs ih =>
    exact le_trans (ih (min a x)) (min_le_left a x)

theorem foldl_min_le_of_mem {l : List Int} {x : Int} (h : x ∈ l) (a : Int) :
    l.foldl min a ≤ x := by
  induction l generalizing a with
  | nil => cases h
  | cons y ys ih =>
    rcases List.mem_cons.mp h with rfl | hy
    · exact le_trans (foldl_min_le_init ys (min a x)) (min_le_right a x)
    · exact ih hy (min a y)

theorem le_foldl_max_init (l : List Int) (a : Int) : a ≤ l.foldl max a := by
  induction l generalizing a with
  | nil => simp
  | cons x xs ih =>
    exact le_trans (le_max_left a x) (ih (max a x))

theorem le_foldl_max_of_mem {l : List Int} {x : Int} (h : x ∈ l) (a : Int) :
    x ≤ l.foldl max a := by
  induction l generalizing a with
  | nil => cases h
  | cons y ys ih =>
    rcases List.mem_cons.mp h with rfl | hy
    · exact le_trans (le_max_right a x) (le_foldl_max_init ys (max a x))
    · exact ih hy (max a y)

theorem minStart_le {rows : List PepRow} {r : PepRow} (h : r ∈ rows) :
    minStart rows ≤ r.rt_start := by
  cases rows with
  | nil => cases h
  | cons r₀ rs =>
    rcases List.mem_cons.mp h with rfl | hr
    · exact foldl_min_le_init _ _
    · exact foldl_min_le_of_mem (List.mem_map_of_mem (·.rt_start) hr) _

theorem le_maxStop {rows : List PepRow} {r : PepRow} (h : r ∈ rows) :
    r.rt_stop ≤ maxStop rows := by
  cases rows with
  | nil => cases h
  | cons r₀ rs =>
    rcases List.mem_cons.mp h with rfl | hr
    · exact le_foldl_max_init _ _
    · exact le_foldl_max_of_mem (List.mem_map_of_mem (·.rt_stop) hr) _

theorem mem_intRange {lo hi t : Int} (h₁ : lo ≤ t) (h₂ : t ≤ hi) :
    t ∈ intRange lo hi := by
  have hmem : (t - lo).toNat ∈ List.range (hi + 1 - lo).toNat :=
    List.mem_range.mpr (by omega)
  have ht : t = lo + Int.ofNat (t - lo).toNat := by
    simp only [Int.ofNat_eq_natCast]; omega
  rw [intRange, ht]
  exact List.mem_map_of_mem _ hmem

theorem mem_timeSteps {rows : List PepRow} {r : PepRow} {t : Int}
    (hr : r ∈ rows) (h₁ : r.rt_start ≤ t) (h₂ : t ≤ r.rt_stop) (ht : 0 ≤ t) :
    t ∈ timeSteps rows :=
  mem_intRange (max_le (le_trans (minStart_le hr) h₁) ht)
    (le_trans h₂ (le_maxStop hr))

theorem modelSat_holds {σ : String → Bool} {cs : List Constraint}
    (h : modelSat σ cs = true) {c : Constraint} (hc : c ∈ cs) :
    c.holds σ = true := by
  exact List.all_eq_true.mp h c hc

theorem proteinTarget_le (rows : List PepRow) (K : Nat) (σ : String → Bool) :
    proteinTarget rows K σ ≤ (proteinOrder rows).length :=
  List.length_filter_le _ _

/-! ### Concrete instances used in witnesses and counterexamples -/

/-- Two peptides of one protein, both predicted at 2 s. -/
def exInput : List Row := [⟨"A", "p", 2⟩, ⟨"A", "q", 2⟩]

/-- `exInput` normalized with `rt_width = 2`: windows `[0, 4]`. -/
def exPeps : List PepRow := (loadFilter exInput 2 2).map (mkPepRow 2)

/-- The assignment selecting exactly the peptides `p` and `q`. -/
def selPQ : String → Bool := fun s => s == "p" || s == "q"

/-- `rt_width = 2`, `targets_per_cycle = 10`, `peps_per_prot = 2`. -/
def cfg1 : Config := ⟨2, 10, 2⟩

/-! ### Claims -/

theorem orPbEq_mem_buildModel (cfg : Config) {rows : List PepRow} {p : String}
    (hp : p ∈ proteinOrder rows) :
    Constraint.orPbEq (protVars rows p) 0 cfg.peps_per_prot ∈ buildModel cfg rows := by
  unfold buildModel proteinConstraints
  exact List.mem_cons_of_mem _ (List.mem_append_left _
    (List.mem_append_left _ (List.mem_map_of_mem _ hp)))

/-- C1: in any solution of the built model, every protein present in the
model has either exactly `0` or exactly `peps_per_prot` of its member
peptide variables assigned true: `build_model` adds, per protein, the
disjunction `Or(PbEq(member_vars, 0), PbEq(member_vars, peps_per_prot))`,
so no partial count can occur. -/
theorem protein_all_or_nothing (cfg : Config) (rows : List PepRow)
    (σ : String → Bool) (h : modelSat σ (buildModel cfg rows) = true)
    {p : String} (hp : p ∈ proteinOrder rows) :
    countTrue σ (protVars rows p) = 0 ∨
      countTrue σ (protVars rows p) = cfg.peps_per_prot := by
  have hh := modelSat_holds h (orPbEq_mem_buildModel cfg hp)
  simpa [Constraint.holds] using hh

/-- Witness for `protein_all_or_nothing` at a concrete satisfying
assignment of a concrete model. -/
theorem protein_all_or_nothing_witness :
    modelSat selPQ (buildModel cfg1 exPeps) = true ∧
    "A" ∈ proteinOrder exPeps ∧
    (countTrue selPQ (protVars exPeps "A") = 0 ∨
      countTrue selPQ (protVars exPeps "A") = cfg1.peps_per_prot) :=
  ⟨by decide, by decide,
    protein_all_or_nothing cfg1 exPeps selPQ (by decide) (by decide)⟩

/-- Input for the C2 counterexample: one protein, two peptides predicted
at -3 s (a negative calibrated retention-time prediction).  With
`rt_width = 2` their windows are `[-5, -1]`, entirely before `t = 0`;
since `load` never clamps `rt_start` and `build_model` only constrains
slots from `max(rt_start.min(), 0)` upward, no capacity constraint covers
them. -/
def negInput : List Row := [⟨"A", "p", -3⟩, ⟨"A", "q", -3⟩]

/-- `negInput` normalized with `rt_width = 2`. -/
def negPeps : List PepRow := (loadFilter negInput 2 2).map (mkPepRow 2)

/-- `rt_width = 2`, `targets_per_cycle = 1`, `peps_per_prot = 2`. -/
def cfg2 : Config := ⟨2, 1, 2⟩

/-- C2 counterexample: an assignment that satisfies every constraint
`build_model` emits, yet selects 2 peptides whose windows cover the
integer time slot `t = -1` while `targets_per_cycle = 1` — the capacity
invariant does not hold at every integer time slot. -/
theorem slot_capacity_counterexample :
    modelSat selPQ (buildModel cfg2 negPeps) = true ∧
    cfg2.targets_per_cycle < countTrue selPQ (covering negPeps (-1)) := by
  decide

theorem slot_mem_buildModel (cfg : Config) {rows : List PepRow} {t : Int}
    (ht : t ∈ timeSteps rows) (hne : (covering rows t).isEmpty = false) :
    Constraint.atMost (covering rows t) (cfg.targets_per_cycle : Int) ∈
      buildModel cfg rows := by
  have hslot : Constraint.atMost (covering rows t) (cfg.targets_per_cycle : Int) ∈
      slotConstraints cfg rows := by
    unfold slotConstraints
    exact List.mem_filterMap.mpr ⟨t, ht, by simp [hne]⟩
  unfold buildModel
  exact List.mem_cons_of_mem _ (List.mem_append_right _ hslot)

/-- C2 (amended): for every integer time slot `t ≥ 0` and every solution
of the built model, the number of selected peptides whose window covers
`t` (inclusive at both ends) is at most `targets_per_cycle`: every such
slot with a non-empty covering set lies in
`[max(rt_start.min(), 0), rt_stop.max()]`, for which `build_model` emits
an at-most constraint. -/
theorem slot_capacity_nonneg (cfg : Config) (rows : List PepRow)
    (σ : String → Bool) (t : Int) (ht : 0 ≤ t)
    (h : modelSat σ (buildModel cfg rows) = true) :
    countTrue σ (covering rows t) ≤ cfg.targets_per_cycle := by
  by_cases hcov : covering rows t = []
  · simp [countTrue, hcov]
  · obtain ⟨x, hx⟩ := List.exists_mem_of_ne_nil _ hcov
    rw [covering, List.mem_dedup] at hx
    obtain ⟨r, hrf, rfl⟩ := List.mem_map.mp hx
    have hrmem := List.mem_filter.mp hrf
    have hr1 : r.rt_start ≤ t ∧ t ≤ r.rt_stop := by simpa using hrmem.2
    have htmem : t ∈ timeSteps rows := mem_timeSteps hrmem.1 hr1.1 hr1.2 ht
    have hne : (covering rows t).isEmpty = false := by
      simpa [List.isEmpty_iff] using hcov
    have hh := modelSat_holds h (slot_mem_buildModel cfg htmem hne)
    simp only [Constraint.holds, decide_eq_true_eq] at hh
    exact_mod_cast hh

/-- Witness for `slot_capacity_nonneg` at a concrete slot of a concrete
satisfying assignment. -/
theorem slot_capacity_nonneg_witness :
    (0 : Int) ≤ 1 ∧ modelSat selPQ (buildModel cfg1 exPeps) = true ∧
    countTrue selPQ (covering exPeps 1) ≤ cfg1.targets_per_cycle :=
  ⟨by decide, by decide,
    slot_capacity_nonneg cfg1 exPeps selPQ 1 (by decide) (by decide)⟩

theorem optimize_saves_pairwise (rows : List PepRow) (K : Nat) (timeout : Int)
    (trace : List CheckResult) :
    ∀ best : Nat,
      List.Pairwise (· < ·) (best :: (optimize rows K timeout trace best).saves) := by
  induction trace with
  | nil => intro best; simp [optimize]
  | cons c rest ih =>
    intro best
    cases c with
    | sat σ =>
      simp only [optimize]
      by_cases hbt : best < proteinTarget rows K σ
      · by_cases htN : proteinTarget rows K σ = (proteinOrder rows).length
        · simp only [if_pos hbt, if_pos htN]
          exact List.pairwise_cons.mpr ⟨by simpa using hbt, by simp⟩
        · simp only [if_pos hbt, if_neg htN]
          have hrec := ih (proteinTarget rows K σ)
          refine List.pairwise_cons.mpr ⟨?_, hrec⟩
          intro x hx
          rcases List.mem_cons.mp hx with rfl | hx'
          · exact hbt
          · exact lt_trans hbt ((List.pairwise_cons.mp hrec).1 x hx')
      · simp [hbt]
    | unsat => simp [optimize]
    | unknown =>
      by_cases htio : (0 : Int) < timeout <;> simp [optimize, htio]

theorem optimize_bounds_eq_saves (rows : List PepRow) (K : Nat) (timeout : Int)
    (trace : List CheckResult) :
    ∀ best : Nat, (optimize rows K timeout trace best).bounds =
      (optimize rows K timeout trace best).saves := by
  induction trace with
  | nil => intro best; simp [optimize]
  | cons c rest ih =>
    intro best
    cases c with
    | sat σ =>
      simp only [optimize]
      by_cases hbt : best < proteinTarget rows K σ
      · simp only [if_pos hbt]
        split
        · rfl
        · simp [ih]
      · simp [hbt]
    | unsat => simp [optimize]
    | unknown =>
      by_cases htio : (0 : Int) < timeout <;> simp [optimize, htio]

theorem optimize_sats_le (rows : List PepRow) (K : Nat) (timeout : Int)
    (trace : List CheckResult) :
    ∀ best : Nat, (optimize rows K timeout trace best).sats ≤
      ((proteinOrder rows).length - best) + 1 := by
  induction trace with
  | nil => intro best; simp [optimize]
  | cons c rest ih =>
    intro best
    cases c with
    | sat σ =>
      have hple := proteinTarget_le rows K σ
      simp only [optimize]
      by_cases hbt : best < proteinTarget rows K σ
      · by_cases htN : proteinTarget rows K σ = (proteinOrder rows).length
        · simp only [if_pos hbt, if_pos htN]
          omega
        · have hrec := ih (proteinTarget rows K σ)
          simp only [if_pos hbt, if_neg htN]
          omega
      · simp [hbt]
    | unsat => simp [optimize]
    | unknown =>
      by_cases htio : (0 : Int) < timeout <;> simp [optimize, htio]

/-- C3: the Result Persister runs exactly in the iterations whose
`protein_target` strictly exceeds `best_ever_result` (which is then
updated to it), so the `protein_target` values of successively persisted
artifacts within one run — prefixed by the initial `best_ever_result = 0`
— form a strictly increasing sequence: never equal, never decreasing. -/
theorem persisted_targets_strictly_increasing (rows : List PepRow) (K : Nat)
    (timeout : Int) (trace : List CheckResult) :
    List.Pairwise (· < ·) (0 :: (runOptimize rows K timeout trace).saves) :=
  optimize_saves_pairwise rows K timeout trace 0

/-- C7: the ratchet lower bounds — the initial `Sum(...) > 0` of
`build_model` followed by the `Sum(...) > protein_target` added at each
improving iteration — form a strictly increasing sequence, and the loop
consumes at most `num_proteins + 1` satisfiable checks on any trace of
engine answers, however long: it cannot cycle indefinitely. -/
theorem ratchet_strictly_monotonic_and_bounded (rows : List PepRow) (K : Nat)
    (timeout : Int) (trace : List CheckResult) :
    List.Pairwise (· < ·) (0 :: (runOptimize rows K timeout trace).bounds) ∧
    (runOptimize rows K timeout trace).sats ≤ (proteinOrder rows).length + 1 := by
  constructor
  · rw [runOptimize, optimize_bounds_eq_saves]
    exact optimize_saves_pairwise rows K timeout trace 0
  · have h := optimize_sats_le rows K timeout trace 0
    simpa [runOptimize] using h

/-- C4 (code bug): normalization does not clamp negative `rt_start`
values.  For a peptide predicted at 1 s with `rt_width = 5`, `load`
leaves `rt_start = -4 < 0` in the normalized table, although the code's
own log line announces "Adjusting negative peptide rt_start values to 0"
for exactly these rows (lines 140-144 compute the mask and log, but
assign nothing). -/
theorem negative_rt_start_survives_load :
    ((loadFilter [⟨"A", "p", 1⟩, ⟨"A", "q", 1⟩] 2 2).map (mkPepRow 5)).map
        (·.rt_start) = [-4, -4] ∧
    (-4 : Int) < 0 := by
  decide

/-- An input table with all required columns whose only protein has a
single distinct peptide: with `peps_per_prot = 2` the filter drops every
row, leaving zero proteins. -/
def zeroProtTable : InputTable :=
  ⟨["accession", "peptide_sequence", "prosit_predicted_rt_seconds"],
    [⟨"A", "p", 100⟩]⟩

/-- An input table missing the `prosit_predicted_rt_seconds` column. -/
def missingColTable : InputTable :=
  ⟨["accession", "peptide_sequence"], [⟨"A", "p", 100⟩]⟩

/-- C5 counterexample: when zero proteins remain after the
minimum-peptide filter, no `InputError` is raised — `load` completes
normally with an empty table (zero proteins) and the program proceeds
into model construction and the search loop. -/
theorem zero_proteins_no_input_error :
    load 2 2 5 zeroProtTable = .ok [] ∧
    proteinOrder ((loadFilter zeroProtTable.rows 2 2).map (mkPepRow 5)) = [] ∧
    run 2 2 5 (-1) zeroProtTable [] = .ok ⟨[], [], .exhausted, 0⟩ :=
  ⟨rfl, rfl, rfl⟩

/-- C5 (amended): a missing required column makes the program fail (the
spec's `InputError`) during `load`, before any model is built and before
the destination artifact is touched; zero proteins remaining after the
minimum-peptide filter, however, raises no `InputError` — `load`
completes and the run proceeds. -/
theorem input_error_on_missing_column (selfK argsK : Nat) (W timeout : Int)
    (t : InputTable) (trace : List CheckResult) :
    (requiredColumns.all (fun c => t.columns.contains c) = false →
      run selfK argsK W timeout t trace = .error .missingColumn) ∧
    (requiredColumns.all (fun c => t.columns.contains c) = true →
      ∃ res : LoopResult, run selfK argsK W timeout t trace = .ok res) := by
  constructor
  · intro h
    have h' : ¬ (requiredColumns.all (fun c => t.columns.contains c) = true) := by
      intro hc; rw [hc] at h; cases h
    unfold run load
    rw [if_neg h']
  · intro h
    unfold run load
    rw [if_pos h]
    exact ⟨_, rfl⟩

/-- Witness for `input_error_on_missing_column` at the two concrete
tables. -/
theorem input_error_on_missing_column_witness :
    run 2 2 5 (-1) missingColTable [] = .error .missingColumn ∧
    ∃ res : LoopResult, run 2 2 5 (-1) zeroProtTable [] = .ok res :=
  ⟨(input_error_on_missing_column 2 2 5 (-1) missingColTable []).1 (by decide),
    (input_error_on_missing_column 2 2 5 (-1) zeroProtTable []).2 (by decide)⟩

/-- C6 (code bug): when the engine answers `unknown` under an unlimited
budget (`timeout ≤ 0`, the default `-1`), the `unknown` branch of
`Needler.optimize` reads the local `remainder_seconds`, which is only
assigned under `if self.timeout > 0` — the loop dies with
`UnboundLocalError` instead of terminating in the `TimedOut`/`Unknown`
state; with `timeout > 0` the same answer terminates cleanly. -/
theorem unknown_with_unlimited_timeout_crashes :
    (runOptimize exPeps 2 (-1) [.unknown]).term = .crashUnboundLocal ∧
    (runOptimize exPeps 2 (-1) [.unknown]).term ≠ .timedOut ∧
    (runOptimize exPeps 2 1 [.unknown]).term = .timedOut := by
  decide

/-- C8: the global cardinality hint is exactly
`min(blocks * targets_per_cycle, num_proteins * peps_per_prot) + 500`
with `blocks = floor(gradient_seconds / pep_width) + 1`,
`pep_width = 1 + 2 * rt_width` and
`gradient_seconds = rt_stop.max() - rt_start.min()`, and `build_model`
emits a single at-most constraint bounding the number of true peptide
variables by it, so every solution selects at most that many peptides. -/
theorem global_cardinality_hint (cfg : Config) (rows : List PepRow)
    (σ : String → Bool) (h : modelSat σ (buildModel cfg rows) = true) :
    maxTargetable cfg rows =
      min (((maxStop rows - minStart rows).fdiv (1 + 2 * cfg.rt_width) + 1)
            * (cfg.targets_per_cycle : Int))
          (((proteinOrder rows).length : Int) * (cfg.peps_per_prot : Int))
        + 500 ∧
    (countTrue σ (peptideOrder rows) : Int) ≤ maxTargetable cfg rows := by
  refine ⟨rfl, ?_⟩
  have hc : Constraint.atMost (peptideOrder rows) (maxTargetable cfg rows) ∈
      buildModel cfg rows := by
    unfold buildModel
    exact List.mem_cons_self _ _
  have hh := modelSat_holds h hc
  simpa [Constraint.holds, decide_eq_true_eq] using hh

/-- Witness for `global_cardinality_hint` at a concrete satisfying
assignment. -/
theorem global_cardinality_hint_witness :
    modelSat selPQ (buildModel cfg1 exPeps) = true ∧
    (countTrue selPQ (peptideOrder exPeps) : Int) ≤ maxTargetable cfg1 exPeps :=
  ⟨by decide, (global_cardinality_hint cfg1 exPeps selPQ (by decide)).2⟩

/-- The order in which a protein's pseudo-boolean pairs (lines 193-195)
and a time slot's variables (lines 230-232) are emitted to the solver:
`random.shuffle` is guarded by `args.shuffle` — the module-level
command-line namespace — while the `shuffle` flag stored on the `Needler`
instance is passed but never read at these two sites. -/
def emittedVars (_selfShuffle argsShuffle : Bool)
    (shufflePerm : List String → List String) (vars : List String) :
    List String :=
  if argsShuffle then shufflePerm vars else vars

/-- Protein `A` with one distinct peptide, protein `B` with two. -/
def mixedInput : List Row := [⟨"A", "a1", 10⟩, ⟨"B", "b1", 10⟩, ⟨"B", "b2", 10⟩]

/-- C9: the protein-dropping filter and the shuffle guards read the
module-level command-line namespace, not the `Needler` instance:
whenever the trigger fires, the rows kept by `load` are determined by
`args.peps_per_prot` alone (two instances differing in their
`peps_per_prot` keep identical rows), the emitted variable order depends
only on `args.shuffle`, and varying `args.peps_per_prot` with the
instance value held fixed does change the kept rows. -/
theorem module_args_shadow_instance_attributes :
    (∀ (rows : List Row) (selfK selfK' argsK : Nat),
      rows.any (fun r => proteinPeps rows r.accession < selfK) = true →
      rows.any (fun r => proteinPeps rows r.accession < selfK') = true →
      loadFilter rows selfK argsK = loadFilter rows selfK' argsK) ∧
    (∀ (selfShuffle selfShuffle' argsShuffle : Bool)
      (perm : List String → List String) (vars : List String),
      emittedVars selfShuffle argsShuffle perm vars =
        emittedVars selfShuffle' argsShuffle perm vars) ∧
    loadFilter mixedInput 2 2 ≠ loadFilter mixedInput 2 3 := by
  refine ⟨?_, fun _ _ _ _ _ => rfl, by decide⟩
  intro rows selfK selfK' argsK h h'
  simp only [loadFilter, h, h', if_pos]

/-- Witness for `module_args_shadow_instance_attributes`: two instances
with `peps_per_prot` 2 and 3 keep the same rows once the command-line
value (2) is fixed. -/
theorem module_args_shadow_instance_attributes_witness :
    loadFilter mixedInput 2 2 = loadFilter mixedInput 3 2 :=
  module_args_shadow_instance_attributes.1 mixedInput 2 3 2
    (by decide) (by decide)

theorem protVars_nodup (rows : List PepRow) (p : String) :
    (protVars rows p).Nodup :=
  List.nodup_dedup _

theorem mem_protVars_of_row {rows : List Row} {r : Row} (hr : r ∈ rows)
    (W : Int) :
    r.peptide_sequence ∈ protVars (rows.map (mkPepRow W)) r.accession := by
  rw [protVars, List.mem_dedup]
  refine List.mem_map.mpr ⟨mkPepRow W r, ?_, rfl⟩
  refine List.mem_filter.mpr ⟨List.mem_map_of_mem _ hr, ?_⟩
  simp [mkPepRow]

/-- Two proteins, two distinct peptides each, sharing the sequence `s`:
`proteinPeps` is 2 for both, so the minimum-peptide filter keeps every
row. -/
def shuffleInput : List Row :=
  [⟨"A", "s", 10⟩, ⟨"A", "t", 10⟩, ⟨"B", "s", 10⟩, ⟨"B", "q", 10⟩]

/-- `shuffleInput` as an input artifact with all required columns. -/
def shuffleTable : InputTable := ⟨requiredColumns, shuffleInput⟩

/-- A concrete per-protein guid mapping for the shuffle branch. -/
def protGuidEx : String → String := fun p => String.append "guid-" p

/-- `shuffleInput` normalized with `rt_width = 2` along the shuffle
branch, with concrete row uuids `u0..u3`. -/
def shuffledPeps : List PepRow :=
  applyShuffleIds protGuidEx ["u0", "u1", "u2", "u3"]
    (shuffleInput.map (mkPepRow 2))

/-- C10 counterexample: with shuffling enabled (the `Needler`
constructor's default), the input rows 0 and 2 both carry the peptide
sequence `s` — under proteins `A` and `B` — yet normalization gives them
the distinct decision variables `u0` and `u2`: the variable pool has one
variable per ROW (4 variables for 3 distinct sequences), `u0` belongs
only to `A`'s balance constraint, and assigning `u0` true contributes
nothing to `B`'s count.  Variables are not keyed by peptide sequence on
this path. -/
theorem peptide_vars_split_by_shuffle :
    loadWith true protGuidEx ["u0", "u1", "u2", "u3"] 2 2 2 shuffleTable
        = .ok shuffledPeps ∧
    ((shuffleInput.get ⟨0, by decide⟩).peptide_sequence
        = (shuffleInput.get ⟨2, by decide⟩).peptide_sequence ∧
      (shuffledPeps.get ⟨0, by decide⟩).peptide_id = "u0" ∧
      (shuffledPeps.get ⟨2, by decide⟩).peptide_id = "u2" ∧
      "u0" ≠ "u2" ∧
      (shuffleInput.map (·.peptide_sequence)).dedup.length = 3 ∧
      peptideOrder shuffledPeps = ["u0", "u1", "u2", "u3"] ∧
      "u0" ∈ protVars shuffledPeps (protGuidEx "A") ∧
      "u0" ∉ protVars shuffledPeps (protGuidEx "B") ∧
      countTrue (fun v => v == "u0") (protVars shuffledPeps (protGuidEx "B"))
        = 0) :=
  ⟨rfl, by decide⟩

/-- C10 (amended): with shuffling disabled, decision variables are keyed
by peptide sequence, not by (protein, peptide) row — any two input rows
sharing a sequence map to the same variable, the variable pool is
exactly the distinct sequences, and that one variable is a member
(exactly once, so it counts once toward the balance constraint) of the
variable set of every protein containing the sequence.  With shuffling
enabled this fails: lines 113-115 hand every row a fresh uuid
(`peptide_vars_split_by_shuffle`). -/
theorem peptide_vars_keyed_by_sequence (W : Int) (rows : List Row)
    (r₁ r₂ : Row) (h₁ : r₁ ∈ rows) (h₂ : r₂ ∈ rows)
    (hs : r₁.peptide_sequence = r₂.peptide_sequence) :
    (mkPepRow W r₁).peptide_id = (mkPepRow W r₂).peptide_id ∧
    peptideOrder (rows.map (mkPepRow W)) =
      (rows.map (·.peptide_sequence)).dedup ∧
    r₁.peptide_sequence ∈ protVars (rows.map (mkPepRow W)) r₁.accession ∧
    r₁.peptide_sequence ∈ protVars (rows.map (mkPepRow W)) r₂.accession ∧
    (protVars (rows.map (mkPepRow W)) r₁.accession).count r₁.peptide_sequence
      = 1 ∧
    (protVars (rows.map (mkPepRow W)) r₂.accession).count r₁.peptide_sequence
      = 1 := by
  have hm₁ := mem_protVars_of_row h₁ W
  have hm₂ : r₁.peptide_sequence ∈ protVars (rows.map (mkPepRow W)) r₂.accession := by
    rw [hs]
    exact mem_protVars_of_row h₂ W
  refine ⟨by simp [mkPepRow, hs], ?_, hm₁, hm₂, ?_, ?_⟩
  · rw [peptideOrder, List.map_map]
    rfl
  · exact List.count_eq_one_of_mem (protVars_nodup _ _) hm₁
  · exact List.count_eq_one_of_mem (protVars_nodup _ _) hm₂

/-- Two proteins sharing the peptide sequence `s`. -/
def sharedInput : List Row := [⟨"A", "s", 10⟩, ⟨"B", "s", 10⟩, ⟨"B", "q", 10⟩]

/-- Witness for `peptide_vars_keyed_by_sequence` on a table where the
sequence `s` occurs under two different proteins. -/
theorem peptide_vars_keyed_by_sequence_witness :
    (⟨"A", "s", 10⟩ : Row) ∈ sharedInput ∧
    (⟨"B", "s", 10⟩ : Row) ∈ sharedInput ∧
    ("s" ∈ protVars (sharedInput.map (mkPepRow 2)) "A" ∧
      "s" ∈ protVars (sharedInput.map (mkPepRow 2)) "B" ∧
      (protVars (sharedInput.map (mkPepRow 2)) "A").count "s" = 1 ∧
      (protVars (sharedInput.map (mkPepRow 2)) "B").count "s" = 1) :=
  ⟨by decide, by decide,
    (peptide_vars_keyed_by_sequence 2 sharedInput ⟨"A", "s", 10⟩ ⟨"B", "s", 10⟩
      (by decide) (by decide) rfl).2.2.1,
    (peptide_vars_keyed_by_sequence 2 sharedInput ⟨"A", "s", 10⟩ ⟨"B", "s", 10⟩
      (by decide) (by decide) rfl).2.2.2.1,
    (peptide_vars_keyed_by_sequence 2 sharedInput ⟨"A", "s", 10⟩ ⟨"B", "s", 10⟩
      (by decide) (by decide) rfl).2.2.2.2.1,
    (peptide_vars_keyed_by_sequence 2 sharedInput ⟨"A", "s", 10⟩ ⟨"B", "s", 10⟩
      (by decide) (by decide) rfl).2.2.2.2.2⟩

end Needler


